import Mathlib

/-!
Shallow embedding of the eligibility service of the reading-quiz API
(`eligibilityService.js` together with the catalog accessors of
`excelService.js`), and proofs of the specified properties.

Modelling conventions:
* JS values reachable in this core (booleans, numbers, strings, arrays,
  `null`) are the inductive `JSVal`; numbers are modelled as integers
  (the catalog priorities and rule values in play are integer-valued),
  so `Number(...)` parsing is restricted to integer literals and `NaN`
  is represented by `Option.none`.
* A JS object used as a record (attribute record, eligibility map) is an
  association list; a key that is absent models an `undefined` property,
  and later entries overwrite earlier ones as JS assignment does.
* `Array.prototype.sort` with the comparator `(a, b) => a.priority - b.priority`
  is modelled by the stable `List.insertionSort` under the corresponding `≤`
  (a stable sort is uniquely determined by the comparator and the input
  order, so any stable implementation is extensionally the JS sort).
-/

/-- JavaScript values flowing through the eligibility core. -/
inductive JSVal where
  | bool (b : Bool)
  | num (n : Int)
  | str (s : String)
  | list (vs : List JSVal)
  | null
deriving Repr, BEq

/-- Attribute record (`textFeatures`): JS object as an association list. -/
abbrev Features := List (String × JSVal)

/-- Eligibility map: JS object from `type_id` to boolean. -/
abbrev EligibilityMap := List (String × Bool)

/-- Property read `obj[name]` on a JS record: `none` models `undefined`.
Later entries overwrite earlier ones, as JS assignment does. -/
def lookupFeature (features : Features) (name : String) : Option JSVal :=
  (features.reverse.find? (fun p => p.1 == name)).map Prod.snd

/-- Lookup in an eligibility map, same object semantics. -/
def eligLookup (m : EligibilityMap) (id : String) : Option Bool :=
  (m.reverse.find? (fun p => p.1 == id)).map Prod.snd

/-- Truthiness of `eligibility[id]` (`undefined` is falsy). -/
def eligTruthy (m : EligibilityMap) (id : String) : Bool :=
  (eligLookup m id).getD false

/-- ASCII lower-casing of one character; the tokens this core lower-cases
and compares are ASCII, so this models JS `toLowerCase` on its inputs. -/
def charToLower (c : Char) : Char :=
  if 65 ≤ c.toNat ∧ c.toNat ≤ 90 then Char.ofNat (c.toNat + 32) else c

/-- JS `String.prototype.toLowerCase`. -/
def strToLower (s : String) : String := String.mk (s.data.map charToLower)

/-- Whitespace recognized by the model of JS `trim`. -/
def isWsChar (c : Char) : Bool := c == ' ' || c == '\t' || c == '\n' || c == '\r'

/-- Trim on the character level. -/
def trimChars (l : List Char) : List Char :=
  ((l.dropWhile isWsChar).reverse.dropWhile isWsChar).reverse

/-- JS `String.prototype.trim`. -/
def strTrim (s : String) : String := String.mk (trimChars s.data)

/-- JS `String.prototype.split` for a one-character separator. -/
def splitOnChar (sep : Char) : List Char → List (List Char)
  | [] => [[]]
  | c :: rest =>
    let groups := splitOnChar sep rest
    if c == sep then [] :: groups
    else
      match groups with
      | [] => [[c]]
      | g :: gs => (c :: g) :: gs

/-- JS `String.prototype.startsWith`, on the character level. -/
def strStartsWith (s pat : String) : Bool := pat.data.isPrefixOf s.data

mutual

/-- JS `String(v)` conversion. In `Array.prototype.join`, `null` elements
become the empty string. -/
def jsToString : JSVal → String
  | JSVal.bool b => if b then "true" else "false"
  | JSVal.num n => toString n
  | JSVal.str s => s
  | JSVal.null => "null"
  | JSVal.list vs => String.intercalate "," (jsJoinParts vs)

/-- Element strings of `Array.prototype.join` (`null` joins as `""`). -/
def jsJoinParts : List JSVal → List String
  | [] => []
  | JSVal.null :: rest => "" :: jsJoinParts rest
  | v :: rest => jsToString v :: jsJoinParts rest

end

/-- Digit run to a natural number. -/
def jsDigitsToNat (ds : List Char) : Nat :=
  ds.foldl (fun n c => n * 10 + (c.toNat - 48)) 0

/-- JS `Number(string)` restricted to the integer literals of this model:
surrounding whitespace is trimmed, the empty string is `0`, an optional
sign is followed by digits; anything else is `NaN` (`none`). -/
def jsParseNumber (s : String) : Option Int :=
  let t := trimChars s.data
  if t = [] then some 0
  else
    match t with
    | '-' :: ds =>
        if ds ≠ [] ∧ ds.all Char.isDigit then some (-(jsDigitsToNat ds : Int)) else none
    | '+' :: ds =>
        if ds ≠ [] ∧ ds.all Char.isDigit then some ((jsDigitsToNat ds : Int)) else none
    | ds =>
        if ds.all Char.isDigit then some ((jsDigitsToNat ds : Int)) else none

/-- JS `Number(v)`: booleans are 0/1, `null` is 0, strings are parsed,
arrays convert through their string form. `none` models `NaN`. -/
def jsToNumber : JSVal → Option Int
  | JSVal.bool b => some (if b then 1 else 0)
  | JSVal.num n => some n
  | JSVal.null => some 0
  | JSVal.str s => jsParseNumber s
  | JSVal.list vs => jsParseNumber (jsToString (JSVal.list vs))

/-- JS strict equality `===` on the values of this model. Two distinct
array literals are never `===` (reference equality), hence `false`. -/
def jsStrictEq : JSVal → JSVal → Bool
  | JSVal.bool a, JSVal.bool b => a == b
  | JSVal.num a, JSVal.num b => a == b
  | JSVal.str a, JSVal.str b => a == b
  | JSVal.null, JSVal.null => true
  | _, _ => false

/-- JS abstract relational comparison `a < b`: two strings compare
lexicographically, otherwise both sides convert to numbers; `none`
models the `undefined` outcome caused by `NaN`. -/
def jsLess : JSVal → JSVal → Option Bool
  | JSVal.str a, JSVal.str b => some (decide (a < b))
  | a, b =>
    match jsToNumber a, jsToNumber b with
    | some x, some y => some (decide (x < y))
    | _, _ => none

/-- JS `a > b` (evaluates `b < a`; `NaN` gives `false`). -/
def jsGT (a b : JSVal) : Bool := (jsLess b a).getD false

/-- JS `a < b` (`NaN` gives `false`). -/
def jsLT (a b : JSVal) : Bool := (jsLess a b).getD false

/-- JS `a >= b` (negation of `a < b` unless `NaN`, which gives `false`). -/
def jsGE (a b : JSVal) : Bool :=
  match jsLess a b with
  | none => false
  | some r => !r

/-- JS `a <= b` (negation of `b < a` unless `NaN`, which gives `false`). -/
def jsLE (a b : JSVal) : Bool :=
  match jsLess b a with
  | none => false
  | some r => !r

/-- Source `normalizeValue`: booleans and numbers pass through; otherwise
the lower-cased trimmed string form is checked against boolean tokens,
then `Number(value)` is tried on the original value, else the normalized
string remains. -/
def normalizeValue (value : JSVal) : JSVal :=
  match value with
  | JSVal.bool b => JSVal.bool b
  | JSVal.num n => JSVal.num n
  | v =>
    let strValue := strTrim (strToLower (jsToString v))
    if strValue == "true" || strValue == "y" || strValue == "yes" then JSVal.bool true
    else if strValue == "false" || strValue == "n" || strValue == "no" then JSVal.bool false
    else
      match jsToNumber v with
      | some numValue => if strValue != "" then JSVal.num numValue else JSVal.str strValue
      | none => JSVal.str strValue

/-- Source `in` operator body: if the normalized rule value is an array its
elements are compared by `===` against the stringified feature (only string
elements can match); otherwise its string form is split on commas, each part
trimmed, and membership of the stringified feature is tested. -/
def inOperatorCheck (normalizedValue normalizedFeature : JSVal) : Bool :=
  match normalizedValue with
  | JSVal.list vs =>
      vs.any (fun v =>
        match v with
        | JSVal.str s => s == jsToString normalizedFeature
        | _ => false)
  | v =>
      ((splitOnChar ',' (jsToString v).data).map (fun g => String.mk (trimChars g))).contains
        (jsToString normalizedFeature)

/-- Source `switch (operator)` of `evaluateCondition`, applied to the two
normalized values. An unrecognized operator passes through as `true`. -/
def evaluateOperator (operator : String) (normalizedFeature normalizedValue : JSVal) : Bool :=
  if operator == "=" || operator == "==" then jsStrictEq normalizedFeature normalizedValue
  else if operator == "!=" || operator == "<>" then !jsStrictEq normalizedFeature normalizedValue
  else if operator == ">" then jsGT normalizedFeature normalizedValue
  else if operator == "<" then jsLT normalizedFeature normalizedValue
  else if operator == ">=" then jsGE normalizedFeature normalizedValue
  else if operator == "<=" then jsLE normalizedFeature normalizedValue
  else if operator == "in" then inOperatorCheck normalizedValue normalizedFeature
  else if operator == "not_in" then !inOperatorCheck normalizedValue normalizedFeature
  else true

/-- Source `evaluateCondition(features, feature, operator, value)`: an absent
(`undefined`) or `null` feature is unsatisfied; otherwise both values are
normalized and the operator switch decides. -/
def evaluateCondition (features : Features) (feature : String) (operator : String)
    (value : JSVal) : Bool :=
  match lookupFeature features feature with
  | none => false
  | some JSVal.null => false
  | some featureValue =>
      evaluateOperator operator (normalizeValue featureValue) (normalizeValue value)

/-- Catalog entry of the `Question_Types` sheet. -/
structure QuestionType where
  type_id : String
  name : String
  priority : Int
  category : String
  description : String
deriving Repr, DecidableEq

/-- Row of the `Type_Requirements` sheet. -/
structure Requirement where
  type_id : String
  feature : String
  operator : String
  value : JSVal
deriving Repr, BEq

/-- Loaded excel data as consumed by the eligibility service. A `none`
field models a missing/null collection on the loaded object. -/
structure ExcelData where
  questionTypes : Option (List QuestionType)
  typeRequirements : Option (List Requirement)

/-- Source `getDefaultQuestionTypes()` of `excelService.js`. -/
def getDefaultQuestionTypes : List QuestionType :=
  [⟨"R_MAIN", "주제/요지", 1, "MAIN", "글의 주제/제목/요지 파악"⟩,
   ⟨"R_DETAIL", "세부정보", 2, "DETAIL", "내용 일치/불일치"⟩,
   ⟨"R_DETAIL_SPECIFIC", "특정정보", 3, "DETAIL", "특정 정보 파악"⟩,
   ⟨"R_INFER_REF", "지칭추론", 4, "INFER", "지칭 추론"⟩,
   ⟨"R_INFER_SUMMARY", "요약문빈칸", 5, "INFER", "요약문 빈칸 추론"⟩,
   ⟨"R_INFER_BLANK", "본문빈칸", 6, "INFER", "본문 빈칸 추론"⟩,
   ⟨"R_INFER_MEANING", "의미추론", 7, "INFER", "함축 의미 추론"⟩,
   ⟨"R_GRAMMAR_USAGE", "동일용법", 8, "GRAMMAR", "동일하게 쓰인 문장 고르기"⟩,
   ⟨"R_GRAMMAR_ERROR", "어법오류", 9, "GRAMMAR", "어법상 틀린 것 고르기"⟩,
   ⟨"R_VOCAB_SYN", "유의어", 10, "VOCAB", "유의어"⟩,
   ⟨"R_VOCAB_ANT", "반의어", 11, "VOCAB", "반의어"⟩,
   ⟨"R_VOCAB_DEF", "영영뜻풀이", 12, "VOCAB", "영영 뜻풀이"⟩,
   ⟨"R_VOCAB_CONTEXT", "문맥상어휘", 13, "VOCAB", "문맥상 틀린 어휘 파악"⟩,
   ⟨"R_FLOW_IRRELEVANT", "무관한문장", 14, "FLOW", "흐름과 무관한 문장"⟩,
   ⟨"R_FLOW_SENTENCE", "문장순서", 15, "FLOW", "문장 순서 배열"⟩,
   ⟨"R_FLOW_PARAGRAPH", "문단순서", 16, "FLOW", "문단 순서 배열"⟩,
   ⟨"R_FLOW_INSERT", "문장위치", 17, "FLOW", "주어진 문장의 위치"⟩]

/-- Source `getQuestionTypes(excelData)`: the loaded catalog, or the built-in
default table when the collection is missing. -/
def getQuestionTypes (excelData : ExcelData) : List QuestionType :=
  excelData.questionTypes.getD getDefaultQuestionTypes

/-- Source `getTypeRequirements(excelData, typeId)`: the requirement rows of
one type, or `[]` when the collection is missing. -/
def getTypeRequirements (excelData : ExcelData) (typeId : String) : List Requirement :=
  match excelData.typeRequirements with
  | none => []
  | some reqs => reqs.filter (fun r => r.type_id == typeId)

/-- Source `calculateEligibility(excelData, textFeatures)`: every catalog type
maps to the conjunction of `evaluateCondition` over its requirements, a type
with no requirements mapping to `true`. -/
def calculateEligibility (excelData : ExcelData) (textFeatures : Features) : EligibilityMap :=
  (getQuestionTypes excelData).map (fun t =>
    let requirements := getTypeRequirements excelData t.type_id
    if requirements.length = 0 then (t.type_id, true)
    else (t.type_id, requirements.all (fun req =>
      evaluateCondition textFeatures req.feature req.operator req.value)))

/-- The two mandatory core reading types of `decideFinalTypes`. -/
def basicTypes : List String := ["R_MAIN", "R_DETAIL"]

/-- JS `Set.add` on an insertion-ordered set of ids. -/
def setAdd (s : List String) (id : String) : List String :=
  if s.contains id then s else s ++ [id]

/-- Step 3 of `decideFinalTypes`: the mandatory core ids that pass the
eligibility map are added to the (initially empty) result set first. -/
def mandatoryIncluded (eligibility : EligibilityMap) : List String :=
  basicTypes.foldl (fun s id => if eligTruthy eligibility id then setAdd s id else s) []

/-- JS `.sort((a, b) => a.priority - b.priority)` (stable). -/
def sortByPriority (l : List QuestionType) : List QuestionType :=
  l.insertionSort (fun a b => a.priority ≤ b.priority)

/-- Guard `textFeatures.tone === 'evaluative'`. -/
def toneIsEvaluative (textFeatures : Features) : Bool :=
  match lookupFeature textFeatures "tone" with
  | some (JSVal.str s) => s == "evaluative"
  | _ => false

/-- Step 2 of `decideFinalTypes`: when the tone is evaluative, drop every
`R_FLOW_` type, and if more than one `R_INFER_` type remains keep only the
one of smallest priority (first such entry, by sort stability). -/
def applyEvaluativeTonePolicy (textFeatures : Features)
    (eligibleTypes : List QuestionType) : List QuestionType :=
  if toneIsEvaluative textFeatures then
    let afterFlow := eligibleTypes.filter (fun t => !(strStartsWith t.type_id "R_FLOW_"))
    let inferTypes := afterFlow.filter (fun t => strStartsWith t.type_id "R_INFER_")
    if inferTypes.length > 1 then
      match (sortByPriority inferTypes).head? with
      | some bestInfer =>
          afterFlow.filter (fun t =>
            !(strStartsWith t.type_id "R_INFER_") || t.type_id == bestInfer.type_id)
      | none => afterFlow
    else afterFlow
  else eligibleTypes

/-- Step 4 of `decideFinalTypes`: append candidates in order until the set
reaches `maxTypes` members; the size test happens before each add, exactly
as the `break` in the source loop. -/
def fillToCapacity (maxTypes : Int) : List QuestionType → List String → List String
  | [], s => s
  | t :: rest, s =>
      if (s.length : Int) ≥ maxTypes then s
      else fillToCapacity maxTypes rest (setAdd s t.type_id)

/-- Priority used by the final sort: `typeMap.get(id)?.priority || 99`.
A map built by `new Map` keeps the last entry of a duplicated key, and the
JS `||` turns the falsy priority `0` into `99` just like a missing entry. -/
def getPriorityOr99 (questionTypes : List QuestionType) (id : String) : Int :=
  match questionTypes.reverse.find? (fun t => t.type_id == id) with
  | none => 99
  | some t => if t.priority == 0 then 99 else t.priority

/-- Source `decideFinalTypes(excelData, textFeatures, eligibility, options)`;
`options` is the `maxTypes` property, `none` modelling an absent property so
that the destructuring default `maxTypes = 5` applies. -/
def decideFinalTypes (excelData : ExcelData) (textFeatures : Features)
    (eligibility : EligibilityMap) (options : Option Int) : List String :=
  let maxTypes := options.getD 5
  let questionTypes := getQuestionTypes excelData
  let eligibleTypes := questionTypes.filter (fun t => eligTruthy eligibility t.type_id)
  let eligibleTypes2 := applyEvaluativeTonePolicy textFeatures eligibleTypes
  let mandatorySet := mandatoryIncluded eligibility
  let sortedTypes := sortByPriority
    (eligibleTypes2.filter (fun t => !(mandatorySet.contains t.type_id)))
  let finalTypeSet := fillToCapacity maxTypes sortedTypes mandatorySet
  finalTypeSet.insertionSort (fun a b =>
    getPriorityOr99 questionTypes a ≤ getPriorityOr99 questionTypes b)

section SanityChecks

/-- Scenario A catalog: one type X requiring `score >= 3`. -/
def scenarioA : ExcelData :=
  ⟨some [⟨"X", "X", 1, "OTHER", ""⟩], some [⟨"X", "score", ">=", JSVal.num 3⟩]⟩

example : eligLookup (calculateEligibility scenarioA [("score", JSVal.num 5)]) "X" = some true := by
  decide

example : eligLookup (calculateEligibility scenarioA [("score", JSVal.num 2)]) "X" = some false := by
  decide

example : eligLookup (calculateEligibility scenarioA []) "X" = some false := by
  decide

/-- Scenario B catalog: evaluative tone with flow and inference candidates. -/
def scenarioB : ExcelData :=
  ⟨some [⟨"R_MAIN", "", 1, "MAIN", ""⟩, ⟨"R_DETAIL", "", 2, "DETAIL", ""⟩,
         ⟨"R_INFER_A", "", 5, "INFER", ""⟩, ⟨"R_INFER_B", "", 3, "INFER", ""⟩,
         ⟨"R_FLOW_X", "", 4, "FLOW", ""⟩], some []⟩

example :
    decideFinalTypes scenarioB [("tone", JSVal.str "evaluative")]
      [("R_MAIN", true), ("R_DETAIL", true), ("R_INFER_A", true),
       ("R_INFER_B", true), ("R_FLOW_X", true)] (some 5)
      = ["R_MAIN", "R_DETAIL", "R_INFER_B"] := by
  decide

/-- Scenario C catalog: capacity 2 forces only the mandatory pair. -/
def scenarioC : ExcelData :=
  ⟨some [⟨"R_MAIN", "", 1, "MAIN", ""⟩, ⟨"R_DETAIL", "", 2, "DETAIL", ""⟩,
         ⟨"OTHER", "", 1, "OTHER", ""⟩], some []⟩

example :
    decideFinalTypes scenarioC []
      [("R_MAIN", true), ("R_DETAIL", true), ("OTHER", true)] (some 2)
      = ["R_MAIN", "R_DETAIL"] := by
  decide

end SanityChecks

section EvaluatorLemmas

theorem evaluateOperator_in_eq (nf nv : JSVal) :
    evaluateOperator "in" nf nv = inOperatorCheck nv nf := rfl

theorem evaluateOperator_not_in_eq (nf nv : JSVal) :
    evaluateOperator "not_in" nf nv = !(inOperatorCheck nv nf) := rfl

theorem evaluateCondition_of_present {tf : Features} {feat : String} {fv : JSVal}
    (op : String) (v : JSVal) (hfv : lookupFeature tf feat = some fv)
    (hnn : fv ≠ JSVal.null) :
    evaluateCondition tf feat op v
      = evaluateOperator op (normalizeValue fv) (normalizeValue v) := by
  unfold evaluateCondition
  rw [hfv]
  cases fv with
  | null => exact absurd rfl hnn
  | bool b => rfl
  | num n => rfl
  | str s => rfl
  | list vs => rfl

end EvaluatorLemmas

/-- C5: evaluating a condition whose referenced feature is absent from the
attribute record, or present with a null value, returns false, for every
operator (recognized or not) and every rule value. -/
theorem evaluateCondition_fail_closed (tf : Features) (feat op : String) (v : JSVal)
    (h : lookupFeature tf feat = none ∨ lookupFeature tf feat = some JSVal.null) :
    evaluateCondition tf feat op v = false := by
  unfold evaluateCondition
  rcases h with h | h <;> rw [h]

/-- Witness for C5 at a concrete input: the empty record misses `"x"`, and a
record carrying `null` in `"y"` is also rejected, for an unrecognized operator. -/
theorem evaluateCondition_fail_closed_witness :
    (lookupFeature [] "x" = none ∨ lookupFeature [] "x" = some JSVal.null) ∧
      evaluateCondition [] "x" "weird_op" (JSVal.num 3) = false ∧
      evaluateCondition [("y", JSVal.null)] "y" ">" (JSVal.num 3) = false :=
  ⟨Or.inl rfl,
   evaluateCondition_fail_closed [] "x" "weird_op" (JSVal.num 3) (Or.inl rfl),
   evaluateCondition_fail_closed [("y", JSVal.null)] "y" ">" (JSVal.num 3)
     (Or.inr rfl)⟩

/-- C7: with the referenced feature present and non-null, an operator outside
the supported set does not fail: the condition evaluates to `true`. -/
theorem evaluateCondition_unknown_operator_true (tf : Features) (feat op : String)
    (v fv : JSVal) (hfv : lookupFeature tf feat = some fv) (hnn : fv ≠ JSVal.null)
    (hop : op ∉ (["=", "==", "!=", "<>", ">", "<", ">=", "<=", "in", "not_in"] : List String)) :
    evaluateCondition tf feat op v = true := by
  rw [evaluateCondition_of_present op v hfv hnn]
  simp only [List.mem_cons, List.not_mem_nil, or_false, not_or] at hop
  obtain ⟨h1, h2, h3, h4, h5, h6, h7, h8, h9, h10⟩ := hop
  unfold evaluateOperator
  simp [beq_eq_false_iff_ne.mpr h1, beq_eq_false_iff_ne.mpr h2,
    beq_eq_false_iff_ne.mpr h3, beq_eq_false_iff_ne.mpr h4,
    beq_eq_false_iff_ne.mpr h5, beq_eq_false_iff_ne.mpr h6,
    beq_eq_false_iff_ne.mpr h7, beq_eq_false_iff_ne.mpr h8,
    beq_eq_false_iff_ne.mpr h9, beq_eq_false_iff_ne.mpr h10]

/-- Witness for C7 at a concrete input: operator `"between"` is unknown and
passes through as `true`. -/
theorem evaluateCondition_unknown_operator_true_witness :
    (lookupFeature [("score", JSVal.num 4)] "score" = some (JSVal.num 4)) ∧
      evaluateCondition [("score", JSVal.num 4)] "score" "between" (JSVal.num 3) = true :=
  ⟨rfl,
   evaluateCondition_unknown_operator_true [("score", JSVal.num 4)] "score" "between"
     (JSVal.num 3) (JSVal.num 4) rfl (by simp) (by decide)⟩

/-- C8: with the referenced feature present and non-null, `in` and `not_in`
are exact complements for the same feature and rule value. -/
theorem evaluateCondition_in_not_in_complement (tf : Features) (feat : String)
    (v fv : JSVal) (hfv : lookupFeature tf feat = some fv) (hnn : fv ≠ JSVal.null) :
    evaluateCondition tf feat "in" v = !(evaluateCondition tf feat "not_in" v) := by
  rw [evaluateCondition_of_present "in" v hfv hnn,
    evaluateCondition_of_present "not_in" v hfv hnn,
    evaluateOperator_in_eq, evaluateOperator_not_in_eq, Bool.not_not]

/-- Witness for C8 at a concrete input: `tone in "factual, critical"`. -/
theorem evaluateCondition_in_not_in_complement_witness :
    (lookupFeature [("tone", JSVal.str "critical")] "tone" = some (JSVal.str "critical")) ∧
      evaluateCondition [("tone", JSVal.str "critical")] "tone" "in"
          (JSVal.str "factual, critical")
        = !(evaluateCondition [("tone", JSVal.str "critical")] "tone" "not_in"
            (JSVal.str "factual, critical")) :=
  ⟨rfl,
   evaluateCondition_in_not_in_complement [("tone", JSVal.str "critical")] "tone"
     (JSVal.str "factual, critical") (JSVal.str "critical") rfl (by simp)⟩

section EligibilityCalculator

theorem eligLookup_calculateEligibility (ed : ExcelData) (tf : Features) (id : String)
    (h : ∃ t ∈ getQuestionTypes ed, t.type_id = id) :
    eligLookup (calculateEligibility ed tf) id
      = some (if (getTypeRequirements ed id).length = 0 then true
          else (getTypeRequirements ed id).all (fun req =>
            evaluateCondition tf req.feature req.operator req.value)) := by
  unfold calculateEligibility eligLookup
  rw [← List.map_reverse, List.find?_map]
  have hpf : (fun p : String × Bool => p.1 == id) ∘
      (fun t : QuestionType =>
        if (getTypeRequirements ed t.type_id).length = 0 then (t.type_id, true)
        else (t.type_id, (getTypeRequirements ed t.type_id).all (fun req =>
          evaluateCondition tf req.feature req.operator req.value)))
      = fun t : QuestionType => t.type_id == id := by
    funext t
    by_cases hz : (getTypeRequirements ed t.type_id).length = 0 <;> simp [hz]
  rw [hpf]
  obtain ⟨t, ht, rfl⟩ := h
  have hsome : ((getQuestionTypes ed).reverse.find?
      (fun u : QuestionType => u.type_id == t.type_id)).isSome := by
    rw [List.find?_isSome]
    exact ⟨t, List.mem_reverse.mpr ht, by simp⟩
  obtain ⟨u, hu⟩ := Option.isSome_iff_exists.mp hsome
  have hu_id : u.type_id = t.type_id := by
    have := List.find?_some hu
    simpa using this
  rw [hu]
  by_cases hz : (getTypeRequirements ed u.type_id).length = 0 <;>
    simp [hz, hu_id.symm]

/-- C4: `calculateEligibility` maps each catalog `type_id` to the logical AND
of `evaluateCondition` over all of that type's requirements, and a type with
zero requirements is mapped to `true` independent of the attribute record. -/
theorem calculateEligibility_all_requirements (ed : ExcelData) (tf : Features)
    (t : QuestionType) (ht : t ∈ getQuestionTypes ed) :
    eligLookup (calculateEligibility ed tf) t.type_id
      = some ((getTypeRequirements ed t.type_id).all (fun req =>
          evaluateCondition tf req.feature req.operator req.value)) ∧
    (getTypeRequirements ed t.type_id = [] →
      ∀ tf2 : Features, eligLookup (calculateEligibility ed tf2) t.type_id = some true) := by
  constructor
  · rw [eligLookup_calculateEligibility ed tf t.type_id ⟨t, ht, rfl⟩]
    by_cases hz : (getTypeRequirements ed t.type_id).length = 0
    · rw [if_pos hz, List.length_eq_zero.mp hz]
      rfl
    · rw [if_neg hz]
  · intro hnil tf2
    rw [eligLookup_calculateEligibility ed tf2 t.type_id ⟨t, ht, rfl⟩, hnil]
    rfl

/-- Witness for C4: in the scenario-A catalog the single type `X` with one
`score >= 3` requirement evaluates to the AND of its requirement, and in a
catalog with a requirement-free type `FREE` the result is `true`. -/
theorem calculateEligibility_all_requirements_witness :
    ((⟨"X", "X", 1, "OTHER", ""⟩ : QuestionType) ∈ getQuestionTypes scenarioA ∧
      eligLookup (calculateEligibility scenarioA [("score", JSVal.num 5)]) "X" = some true) ∧
    (getTypeRequirements ⟨some [⟨"FREE", "", 1, "OTHER", ""⟩], some []⟩ "FREE" = [] ∧
      eligLookup (calculateEligibility ⟨some [⟨"FREE", "", 1, "OTHER", ""⟩], some []⟩
        [("anything", JSVal.bool false)]) "FREE" = some true) := by
  constructor
  · refine ⟨by decide, ?_⟩
    rw [(calculateEligibility_all_requirements scenarioA [("score", JSVal.num 5)]
      ⟨"X", "X", 1, "OTHER", ""⟩ (by decide)).1]
    rfl
  · refine ⟨rfl, ?_⟩
    exact (calculateEligibility_all_requirements ⟨some [⟨"FREE", "", 1, "OTHER", ""⟩], some []⟩
      [("anything", JSVal.bool false)] ⟨"FREE", "", 1, "OTHER", ""⟩ (by decide)).2 rfl
      [("anything", JSVal.bool false)]

end EligibilityCalculator

section SelectorLemmas

theorem strContains_iff {s : List String} {a : String} : s.contains a = true ↔ a ∈ s := by
  simp [List.contains]

theorem mem_setAdd {s : List String} {id a : String} :
    a ∈ setAdd s id ↔ a ∈ s ∨ a = id := by
  unfold setAdd
  by_cases h : id ∈ s
  · rw [if_pos (strContains_iff.mpr h)]
    constructor
    · exact Or.inl
    · rintro (ha | rfl)
      · exact ha
      · exact h
  · rw [if_neg (fun hc => h (strContains_iff.mp hc))]
    simp

theorem subset_setAdd (s : List String) (id : String) : s ⊆ setAdd s id := by
  intro a ha
  exact mem_setAdd.mpr (Or.inl ha)

theorem length_setAdd_le (s : List String) (id : String) :
    (setAdd s id).length ≤ s.length + 1 := by
  unfold setAdd
  split
  · omega
  · simp

theorem nodup_setAdd {s : List String} (hs : s.Nodup) (id : String) :
    (setAdd s id).Nodup := by
  unfold setAdd
  by_cases h : id ∈ s
  · rwa [if_pos (strContains_iff.mpr h)]
  · rw [if_neg (fun hc => h (strContains_iff.mp hc))]
    simp [List.nodup_append, hs, h]

theorem subset_fillToCapacity (m : Int) (l : List QuestionType) (s : List String) :
    s ⊆ fillToCapacity m l s := by
  induction l generalizing s with
  | nil => exact fun a ha => ha
  | cons t rest ih =>
    rw [fillToCapacity]
    split
    · exact fun a ha => ha
    · exact (subset_setAdd s t.type_id).trans (ih _)

theorem mem_fillToCapacity {m : Int} {l : List QuestionType} {s : List String} {a : String}
    (ha : a ∈ fillToCapacity m l s) : a ∈ s ∨ ∃ t ∈ l, a = t.type_id := by
  induction l generalizing s with
  | nil => exact Or.inl ha
  | cons t rest ih =>
    rw [fillToCapacity] at ha
    split at ha
    · exact Or.inl ha
    · rcases ih ha with h' | ⟨u, hu, rfl⟩
      · rcases mem_setAdd.mp h' with h'' | rfl
        · exact Or.inl h''
        · exact Or.inr ⟨t, List.mem_cons_self t rest, rfl⟩
      · exact Or.inr ⟨u, List.mem_cons_of_mem t hu, rfl⟩

theorem length_fillToCapacity (m : Int) (l : List QuestionType) (s : List String) :
    (fillToCapacity m l s).length ≤ max s.length m.toNat := by
  induction l generalizing s with
  | nil => exact le_max_left _ _
  | cons t rest ih =>
    rw [fillToCapacity]
    split
    · exact le_max_left _ _
    · next h =>
      refine (ih _).trans (max_le ?_ (le_max_right _ _))
      have h1 : (setAdd s t.type_id).length ≤ s.length + 1 := length_setAdd_le _ _
      have h2 : (s.length : Int) < m := by omega
      have h3 : s.length + 1 ≤ m.toNat := by omega
      exact le_trans (le_trans h1 h3) (le_max_right _ _)

theorem nodup_fillToCapacity (m : Int) (l : List QuestionType) {s : List String}
    (hs : s.Nodup) : (fillToCapacity m l s).Nodup := by
  induction l generalizing s with
  | nil => exact hs
  | cons t rest ih =>
    rw [fillToCapacity]
    split
    · exact hs
    · exact ih (nodup_setAdd hs _)

theorem fillToCapacity_of_nonpos {m : Int} (hm : m ≤ 0) (l : List QuestionType)
    (s : List String) : fillToCapacity m l s = s := by
  cases l with
  | nil => rfl
  | cons t rest =>
    rw [fillToCapacity, if_pos]
    omega

theorem mandatoryIncluded_cases (elig : EligibilityMap) :
    mandatoryIncluded elig
      = (if eligTruthy elig "R_MAIN" then ["R_MAIN"] else [])
        ++ (if eligTruthy elig "R_DETAIL" then ["R_DETAIL"] else []) := by
  unfold mandatoryIncluded basicTypes
  cases h1 : eligTruthy elig "R_MAIN" <;> cases h2 : eligTruthy elig "R_DETAIL" <;>
    simp [h1, h2, setAdd]

theorem mem_mandatoryIncluded {elig : EligibilityMap} {a : String} :
    a ∈ mandatoryIncluded elig ↔ a ∈ basicTypes ∧ eligTruthy elig a = true := by
  rw [mandatoryIncluded_cases]
  constructor
  · intro h
    rcases List.mem_append.mp h with h' | h'
    · by_cases h1 : eligTruthy elig "R_MAIN" = true
      · rw [if_pos h1, List.mem_singleton] at h'
        subst h'
        exact ⟨by simp [basicTypes], h1⟩
      · rw [if_neg h1] at h'
        exact absurd h' (List.not_mem_nil a)
    · by_cases h2 : eligTruthy elig "R_DETAIL" = true
      · rw [if_pos h2, List.mem_singleton] at h'
        subst h'
        exact ⟨by simp [basicTypes], h2⟩
      · rw [if_neg h2] at h'
        exact absurd h' (List.not_mem_nil a)
  · rintro ⟨hb, he⟩
    rcases (show a = "R_MAIN" ∨ a = "R_DETAIL" by simpa [basicTypes] using hb) with rfl | rfl
    · exact List.mem_append.mpr (Or.inl (by rw [if_pos he]; exact List.mem_singleton_self _))
    · exact List.mem_append.mpr (Or.inr (by rw [if_pos he]; exact List.mem_singleton_self _))

theorem length_mandatoryIncluded_le (elig : EligibilityMap) :
    (mandatoryIncluded elig).length ≤ 2 := by
  rw [mandatoryIncluded_cases]
  cases eligTruthy elig "R_MAIN" <;> cases eligTruthy elig "R_DETAIL" <;> simp

theorem nodup_mandatoryIncluded (elig : EligibilityMap) :
    (mandatoryIncluded elig).Nodup := by
  rw [mandatoryIncluded_cases]
  cases eligTruthy elig "R_MAIN" <;> cases eligTruthy elig "R_DETAIL" <;> simp

theorem mem_sortByPriority {l : List QuestionType} {t : QuestionType} :
    t ∈ sortByPriority l ↔ t ∈ l := by
  unfold sortByPriority
  exact List.mem_insertionSort _

theorem mem_of_mem_applyEvaluativeTonePolicy {tf : Features} {l : List QuestionType}
    {t : QuestionType} (h : t ∈ applyEvaluativeTonePolicy tf l) : t ∈ l := by
  simp only [applyEvaluativeTonePolicy] at h
  split at h
  · split at h
    · split at h
      · exact List.mem_of_mem_filter (List.mem_of_mem_filter h)
      · exact List.mem_of_mem_filter h
    · exact List.mem_of_mem_filter h
  · exact h

end SelectorLemmas

/-- C2 (confirmed): each of the two mandatory core type ids (`R_MAIN`,
`R_DETAIL`) appears in the result of `decideFinalTypes` if and only if the
eligibility map marks it eligible — regardless of tone policy, of what else
is eligible, and of the capacity option. -/
theorem decideFinalTypes_mandatory_mem_iff_eligible (ed : ExcelData) (tf : Features)
    (elig : EligibilityMap) (m : Option Int) (id : String) (hid : id ∈ basicTypes) :
    id ∈ decideFinalTypes ed tf elig m ↔ eligTruthy elig id = true := by
  unfold decideFinalTypes
  rw [List.mem_insertionSort]
  constructor
  · intro h
    rcases mem_fillToCapacity h with h' | ⟨t, ht, rfl⟩
    · exact (mem_mandatoryIncluded.mp h').2
    · have h1 : t ∈ applyEvaluativeTonePolicy tf
          ((getQuestionTypes ed).filter (fun u => eligTruthy elig u.type_id)) :=
        List.mem_of_mem_filter (mem_sortByPriority.mp ht)
      have h2 := mem_of_mem_applyEvaluativeTonePolicy h1
      exact (List.mem_filter.mp h2).2
  · intro h
    exact subset_fillToCapacity _ _ _ (mem_mandatoryIncluded.mpr ⟨hid, h⟩)

/-- Witness for C2 at a concrete input: with `R_MAIN` marked eligible and
`R_DETAIL` not, the final list contains `R_MAIN` and not `R_DETAIL`. -/
theorem decideFinalTypes_mandatory_mem_iff_eligible_witness :
    ("R_MAIN" ∈ basicTypes ∧
      "R_MAIN" ∈ decideFinalTypes ⟨some [], some []⟩ [] [("R_MAIN", true)] (some 1)) ∧
    ("R_DETAIL" ∈ basicTypes ∧
      "R_DETAIL" ∉ decideFinalTypes ⟨some [], some []⟩ [] [("R_MAIN", true)] (some 1)) := by
  constructor
  · refine ⟨by decide, ?_⟩
    exact (decideFinalTypes_mandatory_mem_iff_eligible ⟨some [], some []⟩ [] [("R_MAIN", true)]
      (some 1) "R_MAIN" (by decide)).mpr (by decide)
  · refine ⟨by decide, ?_⟩
    intro hmem
    have := (decideFinalTypes_mandatory_mem_iff_eligible ⟨some [], some []⟩ [] [("R_MAIN", true)]
      (some 1) "R_DETAIL" (by decide)).mp hmem
    exact absurd this (by decide)

/-- C1 counterexample: with capacity 1 and both mandatory ids eligible, the
final list has length 2 > 1, so the claimed bound "length at most capacity"
fails for capacities below the number of eligible mandatory types. -/
theorem decideFinalTypes_length_can_exceed_small_capacity :
    ¬ ((decideFinalTypes ⟨some [], some []⟩ []
        [("R_MAIN", true), ("R_DETAIL", true)] (some 1)).length ≤ 1) := by
  decide

/-- C1 (amended): the final list length is at most `max capacity 2` — hence
at most the capacity whenever the capacity is at least the two mandatory
inclusions, in particular for the default capacity 5. -/
theorem decideFinalTypes_length_le_max_capacity_two (ed : ExcelData) (tf : Features)
    (elig : EligibilityMap) (m : Option Int) :
    (decideFinalTypes ed tf elig m).length ≤ max (m.getD 5).toNat 2 := by
  unfold decideFinalTypes
  rw [List.length_insertionSort]
  refine (length_fillToCapacity _ _ _).trans (max_le ?_ (le_max_left _ _))
  exact le_trans (length_mandatoryIncluded_le elig) (le_max_right _ _)

/-- C6 counterexample: a non-positive capacity is not replaced by the
default 5 — with capacity 0 the single eligible type `X` is dropped, while
the missing option yields `["X"]`. -/
theorem decideFinalTypes_nonpositive_capacity_not_default :
    ¬ (decideFinalTypes ⟨some [⟨"X", "X", 1, "OTHER", ""⟩], some []⟩ [] [("X", true)] (some 0)
        = decideFinalTypes ⟨some [⟨"X", "X", 1, "OTHER", ""⟩], some []⟩ [] [("X", true)] none) := by
  decide

/-- C6 (amended): a missing capacity option falls back to the default 5;
a non-positive capacity is used as-is and is never fatal: the capacity-bound
fill adds nothing, so only the eligible mandatory core ids can appear. -/
theorem decideFinalTypes_capacity_default_behavior (ed : ExcelData) (tf : Features)
    (elig : EligibilityMap) :
    decideFinalTypes ed tf elig none = decideFinalTypes ed tf elig (some 5) ∧
    ∀ m : Int, m ≤ 0 → ∀ id ∈ decideFinalTypes ed tf elig (some m), id ∈ basicTypes := by
  refine ⟨rfl, ?_⟩
  intro m hm id hid
  unfold decideFinalTypes at hid
  rw [List.mem_insertionSort] at hid
  rw [show (some m).getD 5 = m from rfl, fillToCapacity_of_nonpos hm] at hid
  exact (mem_mandatoryIncluded.mp hid).1

/-- Witness for C6 at a concrete input: capacity 0 keeps only the eligible
mandatory id `R_MAIN`, which indeed lies in `basicTypes`. -/
theorem decideFinalTypes_capacity_default_behavior_witness :
    (decideFinalTypes ⟨some [⟨"X", "X", 1, "OTHER", ""⟩], some []⟩ []
        [("X", true), ("R_MAIN", true)] none
      = decideFinalTypes ⟨some [⟨"X", "X", 1, "OTHER", ""⟩], some []⟩ []
        [("X", true), ("R_MAIN", true)] (some 5)) ∧
    ((0 : Int) ≤ 0 ∧
      "R_MAIN" ∈ decideFinalTypes ⟨some [⟨"X", "X", 1, "OTHER", ""⟩], some []⟩ []
        [("X", true), ("R_MAIN", true)] (some 0) ∧
      "R_MAIN" ∈ basicTypes) := by
  refine ⟨(decideFinalTypes_capacity_default_behavior _ _ _).1, le_refl 0, by decide, ?_⟩
  exact (decideFinalTypes_capacity_default_behavior ⟨some [⟨"X", "X", 1, "OTHER", ""⟩], some []⟩
    [] [("X", true), ("R_MAIN", true)]).2 0 (le_refl 0) "R_MAIN" (by decide)

section FinalOrdering

/-- Priority key exactly as the spec sentence words it: the catalog priority
of the entry, with only a `type_id` missing from the catalog treated as 99.
Spec-side definition, for comparison with the code's `getPriorityOr99`. -/
def specCatalogPriority (questionTypes : List QuestionType) (id : String) : Int :=
  match questionTypes.reverse.find? (fun t => t.type_id == id) with
  | none => 99
  | some t => t.priority

/-- Catalog containing a priority-0 entry `A` and a priority-1 entry `B`. -/
def priorityZeroCatalog : ExcelData :=
  ⟨some [⟨"A", "", 0, "OTHER", ""⟩, ⟨"B", "", 1, "OTHER", ""⟩], some []⟩

end FinalOrdering

/-- C9 counterexample: with a catalog holding A(priority 0) and B(priority 1),
both eligible, the final list is ["B", "A"], which is not sorted ascending by
the catalog priority (0 before 1 would demand ["A", "B"]): the code's lookup
turns the falsy priority 0 into 99. -/
theorem decideFinalTypes_not_sorted_by_spec_catalog_priority :
    ¬ List.Pairwise
        (fun a b => specCatalogPriority (getQuestionTypes priorityZeroCatalog) a
          ≤ specCatalogPriority (getQuestionTypes priorityZeroCatalog) b)
        (decideFinalTypes priorityZeroCatalog [] [("A", true), ("B", true)] none) := by
  decide

/-- C9 (amended): the final list is sorted ascending by effective priority,
where the effective priority of a `type_id` is its catalog priority except
that a missing catalog entry (and, per C10, a catalog priority 0) counts
as 99. -/
theorem decideFinalTypes_sorted_by_effective_priority (ed : ExcelData) (tf : Features)
    (elig : EligibilityMap) (m : Option Int) :
    List.Sorted
      (fun a b => getPriorityOr99 (getQuestionTypes ed) a
        ≤ getPriorityOr99 (getQuestionTypes ed) b)
      (decideFinalTypes ed tf elig m) ∧
    ∀ id : String, (getQuestionTypes ed).reverse.find? (fun t => t.type_id == id) = none →
      getPriorityOr99 (getQuestionTypes ed) id = 99 := by
  constructor
  · haveI : IsTotal String (fun a b => getPriorityOr99 (getQuestionTypes ed) a
        ≤ getPriorityOr99 (getQuestionTypes ed) b) := ⟨fun a b => le_total _ _⟩
    haveI : IsTrans String (fun a b => getPriorityOr99 (getQuestionTypes ed) a
        ≤ getPriorityOr99 (getQuestionTypes ed) b) := ⟨fun _ _ _ hab hbc => le_trans hab hbc⟩
    unfold decideFinalTypes
    exact List.sorted_insertionSort _ _
  · intro id h
    unfold getPriorityOr99
    rw [h]

/-- Witness for C9's amended theorem at concrete inputs: the default catalog
with only `R_MAIN` eligible is sorted under the effective priority, and the
id `Z` absent from an empty catalog gets effective priority 99. -/
theorem decideFinalTypes_sorted_by_effective_priority_witness :
    List.Sorted
      (fun a b => getPriorityOr99 (getQuestionTypes ⟨some [], some []⟩) a
        ≤ getPriorityOr99 (getQuestionTypes ⟨some [], some []⟩) b)
      (decideFinalTypes ⟨some [], some []⟩ [] [("R_MAIN", true)] none) ∧
    ((getQuestionTypes (⟨some [], some []⟩ : ExcelData)).reverse.find?
        (fun t => t.type_id == "Z") = none ∧
      getPriorityOr99 (getQuestionTypes ⟨some [], some []⟩) "Z" = 99) :=
  ⟨(decideFinalTypes_sorted_by_effective_priority ⟨some [], some []⟩ [] [("R_MAIN", true)]
      none).1,
   by decide,
   (decideFinalTypes_sorted_by_effective_priority ⟨some [], some []⟩ [] [("R_MAIN", true)]
      none).2 "Z" (by decide)⟩

/-- C10 (confirmed): a catalog entry whose priority is the integer 0 is
ordered with effective priority 99, exactly as a `type_id` absent from the
catalog, because the `|| 99` fallback treats the falsy 0 as missing; the
concrete catalog A(priority 0), B(priority 1) therefore yields ["B", "A"],
the priority-0 type sorting last rather than first. -/
theorem getPriorityOr99_zero_sorts_as_missing :
    (∀ (qts : List QuestionType) (id : String) (t : QuestionType),
        qts.reverse.find? (fun u => u.type_id == id) = some t → t.priority = 0 →
        getPriorityOr99 qts id = 99 ∧ getPriorityOr99 qts id = getPriorityOr99 [] id) ∧
    decideFinalTypes priorityZeroCatalog [] [("A", true), ("B", true)] none = ["B", "A"] := by
  constructor
  · intro qts id t hf h0
    unfold getPriorityOr99
    rw [hf]
    simp [h0]
  · decide

/-- Witness for C10 at a concrete input: the one-entry catalog with `A` of
priority 0 assigns `A` the effective priority 99. -/
theorem getPriorityOr99_zero_sorts_as_missing_witness :
    ([(⟨"A", "", 0, "OTHER", ""⟩ : QuestionType)].reverse.find?
        (fun u => u.type_id == "A") = some ⟨"A", "", 0, "OTHER", ""⟩ ∧
      getPriorityOr99 [⟨"A", "", 0, "OTHER", ""⟩] "A" = 99) :=
  ⟨by decide,
   (getPriorityOr99_zero_sorts_as_missing.1 [⟨"A", "", 0, "OTHER", ""⟩] "A"
      ⟨"A", "", 0, "OTHER", ""⟩ (by decide) rfl).1⟩

section EvaluativeTonePolicy

instance : IsTotal QuestionType (fun a b => a.priority ≤ b.priority) :=
  ⟨fun a b => le_total _ _⟩

instance : IsTrans QuestionType (fun a b => a.priority ≤ b.priority) :=
  ⟨fun _ _ _ hab hbc => le_trans hab hbc⟩

/-- The eligible inference-category catalog entries that survive the flow
exclusion of step 2a of the evaluative-tone policy. -/
def postFlowInferTypes (ed : ExcelData) (elig : EligibilityMap) : List QuestionType :=
  (((getQuestionTypes ed).filter (fun t => eligTruthy elig t.type_id)).filter
      (fun t => !(strStartsWith t.type_id "R_FLOW_"))).filter
    (fun t => strStartsWith t.type_id "R_INFER_")

theorem eq_of_mem_of_length_le_one {α : Type} {l : List α} (h : l.length ≤ 1)
    {a b : α} (ha : a ∈ l) (hb : b ∈ l) : a = b := by
  cases l with
  | nil => cases ha
  | cons x rest =>
    cases rest with
    | nil =>
      rw [List.mem_singleton] at ha hb
      rw [ha, hb]
    | cons y rest2 => simp at h

theorem filter_length_le_one_of_nodup {l : List String} {p : String → Bool}
    (hnd : l.Nodup) (heq : ∀ a ∈ l, ∀ b ∈ l, p a = true → p b = true → a = b) :
    (l.filter p).length ≤ 1 := by
  rcases hfl : l.filter p with _ | ⟨a, _ | ⟨b, rest⟩⟩
  · simp
  · simp
  · exfalso
    have ha : a ∈ l.filter p := by rw [hfl]; exact List.mem_cons_self _ _
    have hb : b ∈ l.filter p := by rw [hfl]; exact List.mem_cons_of_mem _ (List.mem_cons_self _ _)
    have hab : a = b := heq a (List.mem_of_mem_filter ha) b (List.mem_of_mem_filter hb)
      (List.of_mem_filter ha) (List.of_mem_filter hb)
    have hnd' := hnd.filter p
    rw [hfl] at hnd'
    exact (List.nodup_cons.mp hnd').1 (hab ▸ List.mem_cons_self b rest)

theorem mem_applyEvaluativeTonePolicy_no_flow {tf : Features} {l : List QuestionType}
    {t : QuestionType} (htone : toneIsEvaluative tf = true)
    (h : t ∈ applyEvaluativeTonePolicy tf l) :
    t ∈ l.filter (fun u => !(strStartsWith u.type_id "R_FLOW_")) := by
  simp only [applyEvaluativeTonePolicy] at h
  rw [if_pos htone] at h
  split at h
  · split at h
    · exact List.mem_of_mem_filter h
    · exact h
  · exact h

theorem applyEvaluativeTonePolicy_infer_eq {tf : Features} {l : List QuestionType}
    {t u : QuestionType} (htone : toneIsEvaluative tf = true)
    (ht : t ∈ applyEvaluativeTonePolicy tf l) (hu : u ∈ applyEvaluativeTonePolicy tf l)
    (hti : strStartsWith t.type_id "R_INFER_" = true)
    (hui : strStartsWith u.type_id "R_INFER_" = true) :
    t.type_id = u.type_id := by
  simp only [applyEvaluativeTonePolicy] at ht hu
  rw [if_pos htone] at ht hu
  by_cases hlen : ((l.filter (fun v => !(strStartsWith v.type_id "R_FLOW_"))).filter
      (fun v => strStartsWith v.type_id "R_INFER_")).length > 1
  · rw [if_pos hlen] at ht hu
    cases hh : (sortByPriority ((l.filter (fun v => !(strStartsWith v.type_id "R_FLOW_"))).filter
        (fun v => strStartsWith v.type_id "R_INFER_"))).head? with
    | none =>
      exfalso
      rw [List.head?_eq_none_iff] at hh
      have : ((l.filter (fun v => !(strStartsWith v.type_id "R_FLOW_"))).filter
          (fun v => strStartsWith v.type_id "R_INFER_")).length = 0 := by
        have := congrArg List.length hh
        rwa [sortByPriority, List.length_insertionSort] at this
      omega
    | some bestInfer =>
      rw [hh] at ht hu
      have h1 := List.of_mem_filter ht
      have h2 := List.of_mem_filter hu
      rw [hti] at h1
      rw [hui] at h2
      simp only [Bool.not_true, Bool.false_or, beq_iff_eq] at h1 h2
      rw [h1, h2]
  · rw [if_neg hlen] at ht hu
    have h1 : t ∈ (l.filter (fun v => !(strStartsWith v.type_id "R_FLOW_"))).filter
        (fun v => strStartsWith v.type_id "R_INFER_") := List.mem_filter.mpr ⟨ht, hti⟩
    have h2 : u ∈ (l.filter (fun v => !(strStartsWith v.type_id "R_FLOW_"))).filter
        (fun v => strStartsWith v.type_id "R_INFER_") := List.mem_filter.mpr ⟨hu, hui⟩
    exact congrArg QuestionType.type_id (eq_of_mem_of_length_le_one (by omega) h1 h2)

theorem applyEvaluativeTonePolicy_infer_minimal {tf : Features} {l : List QuestionType}
    {t : QuestionType} (htone : toneIsEvaluative tf = true)
    (ht : t ∈ applyEvaluativeTonePolicy tf l)
    (hti : strStartsWith t.type_id "R_INFER_" = true) :
    ∃ b ∈ (l.filter (fun u => !(strStartsWith u.type_id "R_FLOW_"))).filter
        (fun u => strStartsWith u.type_id "R_INFER_"),
      b.type_id = t.type_id ∧
      ∀ u ∈ (l.filter (fun u => !(strStartsWith u.type_id "R_FLOW_"))).filter
          (fun u => strStartsWith u.type_id "R_INFER_"), b.priority ≤ u.priority := by
  have hmem := mem_applyEvaluativeTonePolicy_no_flow htone ht
  simp only [applyEvaluativeTonePolicy] at ht
  rw [if_pos htone] at ht
  by_cases hlen : ((l.filter (fun v => !(strStartsWith v.type_id "R_FLOW_"))).filter
      (fun v => strStartsWith v.type_id "R_INFER_")).length > 1
  · rw [if_pos hlen] at ht
    cases hsort : sortByPriority ((l.filter (fun v => !(strStartsWith v.type_id "R_FLOW_"))).filter
        (fun v => strStartsWith v.type_id "R_INFER_")) with
    | nil =>
      exfalso
      have := congrArg List.length hsort
      rw [sortByPriority, List.length_insertionSort] at this
      rw [List.length_nil] at this
      omega
    | cons bestInfer rest =>
      rw [hsort] at ht
      simp only [List.head?_cons] at ht
      have hb_mem : bestInfer ∈ (l.filter (fun v => !(strStartsWith v.type_id "R_FLOW_"))).filter
          (fun v => strStartsWith v.type_id "R_INFER_") := by
        rw [← List.mem_insertionSort (fun a b : QuestionType => a.priority ≤ b.priority)]
        rw [show (List.filter (fun v => strStartsWith v.type_id "R_INFER_")
            (List.filter (fun v => !(strStartsWith v.type_id "R_FLOW_")) l)).insertionSort
            (fun a b : QuestionType => a.priority ≤ b.priority) = sortByPriority _ from rfl]
        rw [hsort]
        exact List.mem_cons_self _ _
      have hid : bestInfer.type_id = t.type_id := by
        have h1 := List.of_mem_filter ht
        rw [hti] at h1
        simp only [Bool.not_true, Bool.false_or, beq_iff_eq] at h1
        exact h1.symm
      refine ⟨bestInfer, hb_mem, hid, ?_⟩
      intro u hu
      have hsorted : List.Sorted (fun a b : QuestionType => a.priority ≤ b.priority)
          (sortByPriority ((l.filter (fun v => !(strStartsWith v.type_id "R_FLOW_"))).filter
            (fun v => strStartsWith v.type_id "R_INFER_"))) :=
        List.sorted_insertionSort _ _
      rw [hsort] at hsorted
      have hu' : u ∈ bestInfer :: rest := by
        rw [← hsort, mem_sortByPriority]
        exact hu
      rcases List.mem_cons.mp hu' with rfl | hu''
      · exact le_refl _
      · exact List.rel_of_sorted_cons hsorted u hu''
  · rw [if_neg hlen] at ht
    have h1 : t ∈ (l.filter (fun v => !(strStartsWith v.type_id "R_FLOW_"))).filter
        (fun v => strStartsWith v.type_id "R_INFER_") := List.mem_filter.mpr ⟨ht, hti⟩
    refine ⟨t, h1, rfl, ?_⟩
    intro u hu
    rw [eq_of_mem_of_length_le_one (by omega) h1 hu]

theorem mem_decideFinalTypes_cases {ed : ExcelData} {tf : Features} {elig : EligibilityMap}
    {m : Option Int} {id : String} (h : id ∈ decideFinalTypes ed tf elig m) :
    (id ∈ basicTypes ∧ eligTruthy elig id = true) ∨
    ∃ t ∈ applyEvaluativeTonePolicy tf
        ((getQuestionTypes ed).filter (fun u => eligTruthy elig u.type_id)),
      t.type_id = id := by
  unfold decideFinalTypes at h
  rw [List.mem_insertionSort] at h
  rcases mem_fillToCapacity h with h' | ⟨t, ht, rfl⟩
  · exact Or.inl (mem_mandatoryIncluded.mp h')
  · exact Or.inr ⟨t, List.mem_of_mem_filter (mem_sortByPriority.mp ht), rfl⟩

theorem nodup_decideFinalTypes (ed : ExcelData) (tf : Features) (elig : EligibilityMap)
    (m : Option Int) : (decideFinalTypes ed tf elig m).Nodup := by
  unfold decideFinalTypes
  exact (List.perm_insertionSort _ _).nodup_iff.mpr
    (nodup_fillToCapacity _ _ (nodup_mandatoryIncluded elig))

theorem basic_not_flow_infer {id : String} (hid : id ∈ basicTypes) :
    strStartsWith id "R_FLOW_" = false ∧ strStartsWith id "R_INFER_" = false := by
  rcases (show id = "R_MAIN" ∨ id = "R_DETAIL" by simpa [basicTypes] using hid) with rfl | rfl
  · exact ⟨by decide, by decide⟩
  · exact ⟨by decide, by decide⟩

end EvaluativeTonePolicy

/-- C3 (confirmed): when the tone attribute is `"evaluative"`, the final list
contains no `R_FLOW_`-prefixed id, at most one `R_INFER_`-prefixed id, and
any included inference id belongs to an eligible post-flow-exclusion
inference entry of minimal priority among those entries. -/
theorem decideFinalTypes_evaluative_tone_policy (ed : ExcelData) (tf : Features)
    (elig : EligibilityMap) (m : Option Int) (htone : toneIsEvaluative tf = true) :
    (∀ id ∈ decideFinalTypes ed tf elig m, strStartsWith id "R_FLOW_" = false) ∧
    ((decideFinalTypes ed tf elig m).filter
        (fun id => strStartsWith id "R_INFER_")).length ≤ 1 ∧
    (∀ id ∈ decideFinalTypes ed tf elig m, strStartsWith id "R_INFER_" = true →
      ∃ b ∈ postFlowInferTypes ed elig, b.type_id = id ∧
        ∀ u ∈ postFlowInferTypes ed elig, b.priority ≤ u.priority) := by
  refine ⟨?_, ?_, ?_⟩
  · intro id hid
    rcases mem_decideFinalTypes_cases hid with ⟨hb, _⟩ | ⟨t, ht, rfl⟩
    · exact (basic_not_flow_infer hb).1
    · have := List.of_mem_filter (mem_applyEvaluativeTonePolicy_no_flow htone ht)
      rwa [Bool.not_eq_eq_eq_not, Bool.not_true] at this
  · apply filter_length_le_one_of_nodup (nodup_decideFinalTypes ed tf elig m)
    intro a ha b hb hpa hpb
    rcases mem_decideFinalTypes_cases ha with ⟨hba, _⟩ | ⟨t, ht, rfl⟩
    · exact absurd hpa (by rw [(basic_not_flow_infer hba).2]; exact Bool.false_ne_true)
    rcases mem_decideFinalTypes_cases hb with ⟨hbb, _⟩ | ⟨u, hu, rfl⟩
    · exact absurd hpb (by rw [(basic_not_flow_infer hbb).2]; exact Bool.false_ne_true)
    exact applyEvaluativeTonePolicy_infer_eq htone ht hu hpa hpb
  · intro id hid hinf
    rcases mem_decideFinalTypes_cases hid with ⟨hb, _⟩ | ⟨t, ht, rfl⟩
    · exact absurd hinf (by rw [(basic_not_flow_infer hb).2]; exact Bool.false_ne_true)
    · exact applyEvaluativeTonePolicy_infer_minimal htone ht hinf

/-- Witness for C3 at the spec's scenario B: tone evaluative, the flow type
is dropped, only the lowest-priority inference type `R_INFER_B` is kept, and
it is minimal among the two eligible post-flow inference entries. -/
theorem decideFinalTypes_evaluative_tone_policy_witness :
    toneIsEvaluative [("tone", JSVal.str "evaluative")] = true ∧
    (∀ id ∈ decideFinalTypes scenarioB [("tone", JSVal.str "evaluative")]
        [("R_MAIN", true), ("R_DETAIL", true), ("R_INFER_A", true),
         ("R_INFER_B", true), ("R_FLOW_X", true)] (some 5),
      strStartsWith id "R_FLOW_" = false) ∧
    ((decideFinalTypes scenarioB [("tone", JSVal.str "evaluative")]
        [("R_MAIN", true), ("R_DETAIL", true), ("R_INFER_A", true),
         ("R_INFER_B", true), ("R_FLOW_X", true)] (some 5)).filter
      (fun id => strStartsWith id "R_INFER_")).length ≤ 1 := by
  refine ⟨by decide, ?_, ?_⟩
  · exact (decideFinalTypes_evaluative_tone_policy scenarioB
      [("tone", JSVal.str "evaluative")]
      [("R_MAIN", true), ("R_DETAIL", true), ("R_INFER_A", true),
       ("R_INFER_B", true), ("R_FLOW_X", true)] (some 5) (by decide)).1
  · exact (decideFinalTypes_evaluative_tone_policy scenarioB
      [("tone", JSVal.str "evaluative")]
      [("R_MAIN", true), ("R_DETAIL", true), ("R_INFER_A", true),
       ("R_INFER_B", true), ("R_FLOW_X", true)] (some 5) (by decide)).2.1
